import Mathlib

/-!
Verification of the OpenClaw Gateway connection/session protocol layer.

Shallow embedding of `openclaw_gateway` (protocol.py, auth.py, server.py,
storage.py).  Decoded JSON values are modelled by `JVal`; JSON arrays are
not produced by any modelled code path and a client-sent array behaves,
for every operation we model, like any other non-object value, so `JVal`
carries arrays as an opaque constructor.
-/

namespace OpenClaw

/-- A decoded JSON value, as produced by `json.loads` in `protocol.parse_frame`.
`arr` abstracts JSON arrays (no modelled operation inspects their elements;
an array is non-object, and its Python truthiness is carried explicitly). -/
inductive JVal where
  | null
  | bool (b : Bool)
  | num (n : Int)
  | str (s : String)
  | arr (nonempty : Bool)
  | obj (fields : List (String × JVal))

/-- Python `d.get(k, default)` on a decoded JSON object (`server.py` uses it
on `frame`, `params` and `auth`).  JSON objects decoded by `json.loads`
have distinct keys, so first-match lookup is faithful. -/
def jget (fields : List (String × JVal)) (k : String) (dflt : JVal) : JVal :=
  match fields.lookup k with
  | some v => v
  | none => dflt

/-- Python `v == "lit"` for a decoded value `v` and a string literal:
true exactly when `v` is that string (`server.py` compares `frame_type`
and `method` this way). -/
def jIsStr (v : JVal) (lit : String) : Bool :=
  match v with
  | .str s => s == lit
  | _ => false

/-- Python truthiness of a decoded JSON value (`server.py` line 123,
`if not message_text`). -/
def jTruthy : JVal → Bool
  | .null => false
  | .bool b => b
  | .num n => n != 0
  | .str s => !s.isEmpty
  | .arr ne => ne
  | .obj fs => !fs.isEmpty

/-- Rendering of a decoded value into the text interpolated by
the f-string of `server.py` line 152 (Python `str()`).  Only the
string case is ever inspected by a property below; the container cases
are abstracted by a tag. -/
def pyStr : JVal → String
  | .str s => s
  | .num n => toString n
  | .bool b => if b then "True" else "False"
  | .null => "None"
  | .arr _ => "<list>"
  | .obj _ => "<dict>"

/-! ## protocol.py — frame construction

Outbound frames are modelled structurally (the JSON text produced by
`json.dumps` is determined by the structure; no claim inspects raw bytes). -/

/-- A server-to-client event frame, one constructor per `make_event` call
site in the repository.  `chat` carries `{runId, state, text}`;
`lifecycle` is the `"agent"` event with `stream="lifecycle"`;
`errStream` is the `"agent"` event with `stream="error"` sent on a chat
fault; `audioBroadcast` carries `{audio_base64, text}` and no run id. -/
inductive Ev where
  | challenge
  | tick
  | chat (runId : String) (state : String) (text : String)
  | lifecycle (runId : String) (phase : String)
  | errStream (runId : String) (message : String)
  | audioBroadcast (audioB64 : String) (text : String)

/-- Payload of a successful response frame, one constructor per
`make_response` call site, plus the error body built by `make_error`. -/
inductive ResBody where
  | helloOk (session : String)
  | accepted (runId : String)
  | acknowledged
  | err (code : String) (message : String)

/-- An outbound frame: a response (`{"type": "res", "id", "ok", ...}`) or
an event (`{"type": "event", ...}`). -/
inductive OutFrame where
  | res (id : JVal) (ok : Bool) (body : ResBody)
  | event (e : Ev)

/-- Model of `protocol.make_response(req_id, payload)` (with `ok=True`). -/
def make_response (reqId : JVal) (body : ResBody) : OutFrame :=
  .res reqId true body

/-- Model of `protocol.make_error(req_id, code, message)` (`ok=False`,
error body). -/
def make_error (reqId : JVal) (code message : String) : OutFrame :=
  .res reqId false (.err code message)

/-- Model of `protocol.make_hello_ok(req_id)`; the fresh `uuid4` session
token is a parameter. -/
def make_hello_ok (reqId : JVal) (session : String) : OutFrame :=
  make_response reqId (.helloOk session)

/-- Model of `protocol.make_tick()`. -/
def make_tick : Ev := .tick

/-- Model of `protocol.make_chat_event(run_id, text, state, is_final)`: the payload
state is overwritten to `"final"` when `is_final` is set. -/
def make_chat_event (runId : String) (text : String) (state : String)
    (isFinal : Bool) : Ev :=
  .chat runId (if isFinal then "final" else state) text

/-- Model of `protocol.make_agent_lifecycle(run_id, phase)`. -/
def make_agent_lifecycle (runId : String) (phase : String) : Ev :=
  .lifecycle runId phase

/-! ## auth.py -/

/-- Holds when every character of the string is ASCII.
`hmac.compare_digest` accepts two `str` arguments only when both are
ASCII-only and raises `TypeError` otherwise. -/
def ascii_only (s : String) : Bool :=
  s.data.all (fun c => c.toNat < 128)

/-- Model of `auth.verify_token` for a string candidate.
`settings.auth_token` is the parameter `secret`.  When no secret is
configured the function returns `False` before any comparison; otherwise
`hmac.compare_digest(token, expected)` raises `TypeError` (modelled by
`Except.error ()`) when either string contains a non-ASCII character,
and for two ASCII-only strings it returns their equality (its
constant-time execution is not observable in this embedding). -/
def verify_token (secret : String) (token : String) : Except Unit Bool :=
  if secret = "" then .ok false
  else if ascii_only token && ascii_only secret then .ok (token == secret)
  else .error ()

/-- Model of `auth.verify_token` applied to a decoded JSON value, as the
handler does with `params["auth"]["token"]`: when a secret is configured
and the candidate is not a string, `hmac.compare_digest` raises
`TypeError`, modelled by `Except.error ()` (likewise, via
`verify_token`, for a string candidate when it or the secret is not
ASCII-only).  When no secret is configured the function returns `False`
before the comparison, whatever the candidate. -/
def verify_token_v (secret : String) (token : JVal) : Except Unit Bool :=
  if secret = "" then .ok false
  else
    match token with
    | .str s => verify_token secret s
    | _ => .error ()

/-! ## server.py — connection handler (gateway_ws) -/

/-- One observable side effect of the connection handler or of a chat
turn: sending a frame, closing the websocket with a code, inserting into
the durable log (`storage.store_message(source=..., text_content=...)`),
spawning the background chat task (`asyncio.create_task`), or appending a
turn to the in-memory conversation transcript. -/
inductive Eff where
  | send (f : OutFrame)
  | closeWs (code : Nat) (reason : String)
  | storeMsg (source : String) (textContent : JVal)
  | spawnChat (runId : String) (message : JVal)
  | appendTurn (role : String) (content : String)

/-- What the read loop does after dispatching one frame: continue with a
(possibly updated) `authenticated` flag, stop normally (the `return` after
an auth-failure close), or let an exception escape to the outer
`except Exception` handler (which ends the loop and runs the `finally`
cleanup that unregisters the session). -/
inductive Ctrl where
  | next (authenticated : Bool)
  | halt
  | exn
deriving DecidableEq

/-- Result of dispatching one decoded frame: the effects performed, in
order, and the loop control outcome. -/
structure StepRes where
  outs : List Eff
  ctrl : Ctrl

/-- The method dispatch of `gateway_ws` for a frame whose `type` is
`"req"` (server.py lines 93-153), translated branch by branch.  `reqId`,
`method` and `params` are the values `frame.get` produced (any decoded
JSON value).  `runId` models the fresh `uuid4` run id generated in the
`chat.send` branch and `session` the fresh session token inside
`make_hello_ok`.  Transport sends are assumed to succeed (transport
faults are outside the scope of every claim).  Branches in which Python would
raise (`.get` on a non-dict, `compare_digest` on a non-string or
non-ASCII token) end with `Ctrl.exn`. -/
def dispatch_req (secret runId session : String) (authenticated : Bool)
    (reqId method params : JVal) : StepRes :=
  if jIsStr method "connect" then
    match params with
    | .obj ps =>
      match jget ps "auth" (.obj []) with
      | .obj aus =>
        match verify_token_v secret (jget aus "token" (.str "")) with
        | .ok true =>
          ⟨[.send (make_hello_ok reqId session)], .next true⟩
        | .ok false =>
          ⟨[.send (make_error reqId "auth_failed" "Invalid token"),
            .closeWs 4001 "Authentication failed"], .halt⟩
        | .error _ => ⟨[], .exn⟩
      | _ => ⟨[], .exn⟩
    | _ => ⟨[], .exn⟩
  else if jIsStr method "chat.send" then
    if !authenticated then
      ⟨[.send (make_error reqId "not_authenticated" "Not authenticated")],
       .next authenticated⟩
    else
      match params with
      | .obj ps =>
        if jTruthy (jget ps "message" (.str "")) then
          ⟨[.send (make_response reqId (.accepted runId)),
            .storeMsg "human" (jget ps "message" (.str "")),
            .spawnChat runId (jget ps "message" (.str ""))],
           .next authenticated⟩
        else ⟨[], .next authenticated⟩
      | _ => ⟨[], .exn⟩
  else if jIsStr method "approval.respond" then
    if !authenticated then ⟨[], .next authenticated⟩
    else ⟨[.send (make_response reqId .acknowledged)], .next authenticated⟩
  else
    ⟨[.send (make_error reqId "unknown_method" ("Unknown: " ++ pyStr method))],
     .next authenticated⟩

/-- The per-frame dispatch of `gateway_ws` (server.py lines 90-153): read
`type`, `id`, `method`, `params` with `frame.get` defaults, handle `req`
frames via `dispatch_req`, silently skip frames of any other type.  A
non-object decoded value raises `AttributeError` at `frame.get`
(`Ctrl.exn`). -/
def dispatch (secret runId session : String) (authenticated : Bool)
    (frame : JVal) : StepRes :=
  match frame with
  | .obj fs =>
    if jIsStr (jget fs "type" (.str "")) "req" then
      dispatch_req secret runId session authenticated
        (jget fs "id" (.str "")) (jget fs "method" (.str ""))
        (jget fs "params" (.obj []))
    else ⟨[], .next authenticated⟩
  | _ => ⟨[], .exn⟩

/-- A client text message, represented by its `json.loads` outcome
(`json.loads` is an external library call): `invalid` stands for any text
that is not valid JSON, `valid v` for a text whose decoded value is `v`. -/
inductive JText where
  | invalid
  | valid (v : JVal)

/-- Model of `protocol.parse_frame`: `json.loads` wrapped so that a decode failure
yields `None` (the malformed sentinel); any successfully decoded value —
object or not — is returned unchanged. -/
def parse_frame : JText → Option JVal
  | .invalid => none
  | .valid v => some v

/-- One iteration of the `gateway_ws` read loop body: parse, skip the
malformed sentinel (`if frame is None: continue`), otherwise dispatch. -/
def handle_text (secret runId session : String) (authenticated : Bool)
    (t : JText) : StepRes :=
  match parse_frame t with
  | none => ⟨[], .next authenticated⟩
  | some f => dispatch secret runId session authenticated f

/-- How a finite run of the read loop ends: all supplied texts consumed
with the connection still open, loop stopped by the server (auth-failure
close), or loop terminated by an escaped exception (the outer
`except Exception` path, followed by the `finally` session cleanup). -/
inductive LoopEnd where
  | stillOpen (authenticated : Bool)
  | closedByServer
  | crashed
deriving DecidableEq

/-- The `gateway_ws` read loop over a finite list of inbound texts:
accumulates the effects of each iteration and reports how the loop ended.
The fresh ids `runId`/`session` are fixed across iterations; no claim
depends on their distinctness. -/
def read_loop (secret runId session : String) (authenticated : Bool) :
    List JText → List Eff × LoopEnd
  | [] => ([], .stillOpen authenticated)
  | t :: ts =>
    let r := handle_text secret runId session authenticated t
    match r.ctrl with
    | .next a2 =>
      let rest := read_loop secret runId session a2 ts
      (r.outs ++ rest.1, rest.2)
    | .halt => (r.outs, .closedByServer)
    | .exn => (r.outs, .crashed)

/-! ## server.py — chat turn (_handle_chat) -/

/-- One entry of the in-memory conversation transcript of a session
(`_conversations[client_id]`): `{"role": ..., "content": ...}`. -/
structure Turn where
  role : String
  content : String
deriving DecidableEq

/-- The trim at server.py lines 191-192: `if len(history) > 40:
history[:] = history[-40:]`. -/
def trim_history (h : List Turn) : List Turn :=
  if h.length > 40 then h.drop (h.length - 40) else h

/-- The streaming loop of `_handle_chat` (lines 175-180): for each token
produced by the generation source, extend `full_response` and send a chat
delta event carrying the full accumulated text.  Returns the emitted
effects and the final `full_response`. -/
def stream_deltas (runId : String) (acc : String) :
    List String → List Eff × String
  | [] => ([], acc)
  | tok :: toks =>
    let acc2 := acc ++ tok
    let rest := stream_deltas runId acc2 toks
    (Eff.send (.event (make_chat_event runId acc2 "delta" false)) :: rest.1,
     rest.2)

/-- Model of `_handle_chat(ws, client_id, run_id, text)` on the success path, for a
generation source that yields `tokens` and then completes, and a TTS
synthesis outcome `ttsAudio` (`none` models `tts.synthesize` returning a
falsy result — disabled or failed).  Returns the effects in program order
and the session transcript after the turn (`history` is the transcript on
entry). -/
def handle_chat (runId : String) (history : List Turn) (text : String)
    (tokens : List String) (ttsAudio : Option String) :
    List Eff × List Turn :=
  let sd := stream_deltas runId "" tokens
  let full := sd.2
  let effs :=
    Eff.send (.event (make_agent_lifecycle runId "start"))
    :: Eff.appendTurn "user" text
    :: sd.1
    ++ [Eff.send (.event (make_chat_event runId full "final" true)),
        Eff.send (.event (make_agent_lifecycle runId "end")),
        Eff.appendTurn "assistant" full,
        Eff.storeMsg "crab" (.str full)]
    ++ (match ttsAudio with
        | some a => [Eff.send (.event (.audioBroadcast a full))]
        | none => [])
  (effs, trim_history ((history ++ [⟨"user", text⟩]) ++ [⟨"assistant", full⟩]))

/-- The complete accepted-`chat.send` effect trace: the handler first
sends the acceptance response and stores the inbound message
(server.py lines 127-135), then spawns `_handle_chat`, whose effects
(server.py lines 164-206) follow — the spawned task cannot run before
`create_task` is reached.  Second component: the transcript after the
turn. -/
def chat_turn (reqId : JVal) (runId : String) (history : List Turn)
    (text : String) (tokens : List String) (ttsAudio : Option String) :
    List Eff × List Turn :=
  let hc := handle_chat runId history text tokens ttsAudio
  (Eff.send (make_response reqId (.accepted runId))
   :: Eff.storeMsg "human" (.str text)
   :: hc.1, hc.2)

/-! ## server.py — heartbeat loop body -/

/-- The body of one `_heartbeat_loop` iteration (server.py lines 288-293):
iterate over a snapshot of `_clients`, attempt to send the tick to each,
and pop from the registry every client whose send raises.  `sendOk`
models whether `ws.send_text` succeeds for a handle.  Returns the ids the
tick was sent to (attempted, in order) and the registry after the pass. -/
def heartbeat_pass {α : Type} (sendOk : α → Bool) :
    List (String × α) → List (String × α) → List String × List (String × α)
  | [], reg => ([], reg)
  | (cid, ws) :: rest, reg =>
    if sendOk ws then
      let r := heartbeat_pass sendOk rest reg
      (cid :: r.1, r.2)
    else
      let r := heartbeat_pass sendOk rest (reg.filter (fun p => p.1 != cid))
      (cid :: r.1, r.2)

/-- One heartbeat tick against the current registry: the snapshot
`list(_clients.items())` is the registry itself. -/
def heartbeat_tick {α : Type} (clients : List (String × α))
    (sendOk : α → Bool) : List String × List (String × α) :=
  heartbeat_pass sendOk clients clients

/-! ## storage.py — message log -/

/-- A stored message-log row, with the columns read by the modelled
operations; `created_at` (an ISO-8601 UTC string in the code, whose
lexicographic `ORDER BY` agrees with chronological order) is modelled as
a number.  The remaining columns (`type`, `priority`, `audio_url`,
`image_url`, `file_url`, `metadata`) are never read by any modelled
operation and are omitted. -/
structure MsgRow where
  id : String
  created_at : Nat
  source : String
  text_content : String
deriving DecidableEq

/-- Insertion step of the SQL `ORDER BY created_at DESC`. -/
def insert_desc (r : MsgRow) : List MsgRow → List MsgRow
  | [] => [r]
  | x :: xs =>
    if x.created_at ≤ r.created_at then r :: x :: xs
    else x :: insert_desc r xs

/-- The SQL `ORDER BY created_at DESC` over the stored rows (insertion
sort; for the distinct timestamps every claim uses, any sort agrees). -/
def sort_desc : List MsgRow → List MsgRow
  | [] => []
  | x :: xs => insert_desc x (sort_desc xs)

/-- Model of `storage.get_messages(limit)`: `SELECT * FROM messages ORDER BY
created_at DESC LIMIT ?`, then `reversed(rows)` (storage.py lines 93-99).
`stored` is the table content in insertion order. -/
def get_messages (stored : List MsgRow) (limit : Nat) : List MsgRow :=
  ((sort_desc stored).take limit).reverse

/-- The `GET /messages` endpoint (server.py lines 237-239): the `limit`
query parameter defaults to 50 when absent. -/
def messages_endpoint (stored : List MsgRow) (limit : Option Nat) :
    List MsgRow :=
  get_messages stored (limit.getD 50)

/-! ## Observation helpers used by the theorems -/

/-- The ids of the response frames in an effect list, in order:
"exactly one response with the matching id" is `resp_ids effs = [reqId]`. -/
def resp_ids (effs : List Eff) : List JVal :=
  effs.filterMap (fun e =>
    match e with
    | .send (.res i _ _) => some i
    | _ => none)

/-- The run id an event is tagged with, when it has one (`chat` and
`agent` events carry `runId` in their payload; `audio_broadcast` and
`tick` do not). -/
def ev_run_id : Ev → Option String
  | .chat r _ _ => some r
  | .lifecycle r _ => some r
  | .errStream r _ => some r
  | _ => none

/-- The events of an effect trace that belong to run `runId`, in order. -/
def run_events (runId : String) (effs : List Eff) : List Ev :=
  effs.filterMap (fun e =>
    match e with
    | .send (.event ev) =>
      match ev_run_id ev with
      | some r => if r == runId then some ev else none
      | none => none
    | _ => none)

/-- The `source` column of every durable-log insert in a trace, in order. -/
def store_sources (effs : List Eff) : List String :=
  effs.filterMap (fun e =>
    match e with
    | .storeMsg s _ => some s
    | _ => none)

/-- The accumulated texts the spec expects the deltas of a run to carry:
one per token, each the concatenation of all tokens so far. -/
def accum_texts (acc : String) : List String → List String
  | [] => []
  | tok :: toks => (acc ++ tok) :: accum_texts (acc ++ tok) toks

/-- The concatenation of all tokens of a run (the final text per the spec). -/
def concat_tokens : List String → String
  | [] => ""
  | tok :: toks => tok ++ concat_tokens toks

/-- Recognizes the acceptance response of a `chat.send` request. -/
def eff_is_accept_res : Eff → Bool
  | .send (.res _ _ (.accepted _)) => true
  | _ => false

/-- Recognizes the durable-log insert of the inbound (`human`) message. -/
def eff_is_store_human : Eff → Bool
  | .storeMsg "human" _ => true
  | _ => false

/-- Recognizes the lifecycle-start event of a run. -/
def eff_is_lifecycle_start : Eff → Bool
  | .send (.event (.lifecycle _ "start")) => true
  | _ => false

/-- Recognizes the append of the user turn to the session transcript. -/
def eff_is_append_user : Eff → Bool
  | .appendTurn "user" _ => true
  | _ => false

/-- Recognizes a streamed `chat` event (delta or final). -/
def eff_is_chat_ev : Eff → Bool
  | .send (.event (.chat _ _ _)) => true
  | _ => false

/-- The most recent `n` entries of a list (its length-`n` suffix). -/
def last_n {α : Type} (n : Nat) (l : List α) : List α :=
  l.drop (l.length - n)

/-- Transcript update of one chat turn of `_handle_chat`: the user entry
is appended first (server.py line 172); on success (`some a`, assistant
reply `a`) the assistant entry is appended and the 40-entry trim runs
(lines 189-192); when the token stream raises (`none`), the
`except Exception` handler at line 210 is reached with only the user
entry appended — the assistant append and the trim never run. -/
def turn_transcript (h : List Turn) (u : String) : Option String → List Turn
  | some a => trim_history ((h ++ [⟨"user", u⟩]) ++ [⟨"assistant", a⟩])
  | none => h ++ [⟨"user", u⟩]

/-- The transcript state after a sequence of chat turns, each given as
(inbound user text, `some` assistant reply for a completed turn or
`none` for a turn that failed mid-stream). -/
def run_turns (h : List Turn) : List (String × Option String) → List Turn
  | [] => h
  | (u, r) :: rest => run_turns (turn_transcript h u r) rest

/-- The full un-trimmed entry sequence a list of chat turns appends: the
user entry always, the assistant entry only for completed turns. -/
def all_turns : List (String × Option String) → List Turn
  | [] => []
  | (u, some a) :: rest => ⟨"user", u⟩ :: ⟨"assistant", a⟩ :: all_turns rest
  | (u, none) :: rest => ⟨"user", u⟩ :: all_turns rest

/-- A well-formed request frame, as decoded from the wire text
`{"type": "req", "id": ..., "method": ..., "params": ...}`. -/
def req_frame (id method : String) (params : JVal) : JVal :=
  .obj [("type", .str "req"), ("id", .str id), ("method", .str method),
        ("params", params)]

/-- Holds when the handler drops a request without any response: an
authenticated `chat.send` whose `message` parameter is missing or falsy
(server.py lines 123-124), or an `approval.respond` from an
unauthenticated session (lines 143-144). -/
def silently_ignored (authenticated : Bool) (method params : JVal) : Bool :=
  (jIsStr method "chat.send" && authenticated &&
    (match params with
     | .obj ps => !jTruthy (jget ps "message" (.str ""))
     | _ => false))
  || (jIsStr method "approval.respond" && !authenticated)

/-! ## Helper lemmas -/

theorem jIsStr_spec (v : JVal) (lit : String) :
    jIsStr v lit = true ↔ v = .str lit := by
  cases v <;> simp [jIsStr]

theorem dispatch_req_frame (secret runId session : String) (a : Bool)
    (id method : String) (params : JVal) :
    dispatch secret runId session a (req_frame id method params) =
      dispatch_req secret runId session a (.str id) (.str method) params :=
  rfl

theorem dispatch_req_connect (secret runId session : String) (a : Bool)
    (reqId tok : JVal) :
    dispatch_req secret runId session a reqId (.str "connect")
        (.obj [("auth", .obj [("token", tok)])]) =
      match verify_token_v secret tok with
      | .ok true => ⟨[.send (make_hello_ok reqId session)], .next true⟩
      | .ok false => ⟨[.send (make_error reqId "auth_failed" "Invalid token"),
                      .closeWs 4001 "Authentication failed"], .halt⟩
      | .error _ => ⟨[], .exn⟩ :=
  rfl

/-! ## Theorems for the claims -/

/-- C6 counterexample: `hmac.compare_digest` rejects non-ASCII strings,
so with the non-ASCII secret "sécret" the exactly-equal candidate makes
`verify_token` raise `TypeError` instead of returning true, and with the
ASCII secret "s3cret" the non-ASCII candidate "café" raises instead of
returning false. -/
theorem verify_token_nonascii_cx :
    verify_token "sécret" "sécret" = .error () ∧
    verify_token "s3cret" "café" = .error () :=
  ⟨rfl, rfl⟩

/-- C6 amended: `verify_token` returns false for every candidate
whenever no secret is configured (before any comparison, in particular
for the empty candidate); with a configured secret, when both the secret
and the candidate are ASCII-only it returns true exactly when the
candidate equals the secret, and when either contains a non-ASCII
character it raises `TypeError` instead of returning. -/
theorem verify_token_correct :
    (∀ token, verify_token "" token = .ok false) ∧
    (∀ secret token, secret ≠ "" → ascii_only secret = true →
      ascii_only token = true →
      (verify_token secret token = .ok true ↔ token = secret)) ∧
    (∀ secret token, secret ≠ "" →
      (ascii_only secret = false ∨ ascii_only token = false) →
      verify_token secret token = .error ()) := by
  refine ⟨fun token => rfl, fun secret token h hs ht => ?_,
    fun secret token h hno => ?_⟩
  · unfold verify_token
    rw [if_neg h, hs, ht]
    simp [beq_iff_eq]
  · unfold verify_token
    rw [if_neg h]
    rcases hno with h1 | h1 <;> rw [h1] <;> simp

/-- Witness for `verify_token_correct` at concrete inputs. -/
theorem verify_token_correct_witness :
    verify_token "" "" = .ok false ∧
    (verify_token "s3cret" "s3cret" = .ok true ↔
      ("s3cret" : String) = "s3cret") ∧
    verify_token "s3cret" "naïve" = .error () :=
  ⟨verify_token_correct.1 "",
   verify_token_correct.2.1 "s3cret" "s3cret" (by decide) (by decide)
     (by decide),
   verify_token_correct.2.2 "s3cret" "naïve" (by decide)
     (Or.inr (by decide))⟩

/-- C10: with a secret configured, a `connect` request whose params carry
the non-string auth token `5` makes `verify_token` raise `TypeError`
(`hmac.compare_digest` rejects non-string input); the exception escapes
the dispatch, so the handler sends no `auth_failed` response and no
close code 4001 — the read loop ends on the outer exception path, which
runs the session cleanup. -/
theorem connect_nonstring_token_crashes (secret runId session : String)
    (authenticated : Bool) (hs : secret ≠ "") :
    verify_token_v secret (.num 5) = .error () ∧
    read_loop secret runId session authenticated
        [.valid (req_frame "c1" "connect"
          (.obj [("auth", .obj [("token", .num 5)])]))] =
      ([], .crashed) := by
  have hv : verify_token_v secret (.num 5) = .error () := by
    unfold verify_token_v
    rw [if_neg hs]
  refine ⟨hv, ?_⟩
  simp only [read_loop, handle_text, parse_frame, dispatch_req_frame,
    dispatch_req_connect]
  rw [hv]

/-- Witness for `connect_nonstring_token_crashes` with the secret
"s3cret". -/
theorem connect_nonstring_token_crashes_witness :
    verify_token_v "s3cret" (.num 5) = .error () ∧
    read_loop "s3cret" "run1" "sess1" false
        [.valid (req_frame "c1" "connect"
          (.obj [("auth", .obj [("token", .num 5)])]))] =
      ([], .crashed) :=
  connect_nonstring_token_crashes "s3cret" "run1" "sess1" false (by decide)

/-- Response-count case analysis of the request dispatch: either the
dispatch raises, or the ids of the responses it sends are exactly
`[reqId]` — except the silently ignored requests, which get none. -/
theorem dispatch_req_resp_ids (secret runId session : String) (a : Bool)
    (reqId method params : JVal) :
    (dispatch_req secret runId session a reqId method params).ctrl = .exn ∨
    (silently_ignored a method params = true ∧
      resp_ids (dispatch_req secret runId session a reqId method params).outs
        = []) ∨
    (silently_ignored a method params = false ∧
      resp_ids (dispatch_req secret runId session a reqId method params).outs
        = [reqId]) := by
  by_cases hc : jIsStr method "connect" = true
  · obtain rfl := (jIsStr_spec method "connect").mp hc
    unfold dispatch_req
    rw [if_pos hc]
    split
    · split
      · split
        all_goals first
          | exact Or.inl rfl
          | exact Or.inr (Or.inr ⟨rfl, rfl⟩)
      · exact Or.inl rfl
    · exact Or.inl rfl
  · by_cases hc2 : jIsStr method "chat.send" = true
    · obtain rfl := (jIsStr_spec method "chat.send").mp hc2
      unfold dispatch_req
      rw [if_neg hc, if_pos hc2]
      cases a with
      | false => exact Or.inr (Or.inr ⟨rfl, rfl⟩)
      | true =>
        rw [if_neg (show ¬((!true) = true) by decide)]
        split
        · split
          · rename_i ps ht
            have hsi : silently_ignored true (.str "chat.send") (.obj ps)
                = false := by
              simp [silently_ignored, jIsStr, ht]
            exact Or.inr (Or.inr ⟨hsi, rfl⟩)
          · rename_i ps ht
            have hb : jTruthy (jget ps "message" (.str "")) = false := by
              revert ht
              simp
            have hsi : silently_ignored true (.str "chat.send") (.obj ps)
                = true := by
              simp [silently_ignored, jIsStr, hb]
            exact Or.inr (Or.inl ⟨hsi, rfl⟩)
        · exact Or.inl rfl
    · by_cases hc3 : jIsStr method "approval.respond" = true
      · obtain rfl := (jIsStr_spec method "approval.respond").mp hc3
        unfold dispatch_req
        rw [if_neg hc, if_neg hc2, if_pos hc3]
        cases a with
        | true => exact Or.inr (Or.inr ⟨rfl, rfl⟩)
        | false => exact Or.inr (Or.inl ⟨rfl, rfl⟩)
      · have h2 : jIsStr method "chat.send" = false := by
          revert hc2
          simp
        have h3 : jIsStr method "approval.respond" = false := by
          revert hc3
          simp
        have hsi : silently_ignored a method params = false := by
          simp [silently_ignored, h2, h3]
        unfold dispatch_req
        rw [if_neg hc, if_neg hc2, if_neg hc3]
        exact Or.inr (Or.inr ⟨hsi, rfl⟩)

/-- C1 amended: every request frame whose dispatch completes without an
escaped exception produces exactly one response, carrying the request
id — except an authenticated `chat.send` with an empty or missing
`message` and an `approval.respond` from an unauthenticated session,
which are silently dropped with no response (`connect` with an invalid
token still responds once, before the transport is closed; requests
whose params have unexpected types — non-object params, a non-string or
non-ASCII auth token — can instead terminate the connection
exceptionally without responding). -/
theorem response_per_request (secret runId session : String) (a : Bool)
    (reqId method params : JVal)
    (hok : (dispatch_req secret runId session a reqId method params).ctrl
      ≠ .exn) :
    resp_ids (dispatch_req secret runId session a reqId method params).outs =
      (if silently_ignored a method params then [] else [reqId]) := by
  rcases dispatch_req_resp_ids secret runId session a reqId method params with
    h | ⟨h1, h2⟩ | ⟨h1, h2⟩
  · exact absurd h hok
  · rw [h1, if_pos rfl]
    exact h2
  · rw [h1, if_neg Bool.false_ne_true]
    exact h2

/-- Witness for `response_per_request`: a valid `connect` request gets
exactly one response with its id. -/
theorem response_per_request_witness :
    resp_ids (dispatch_req "s3cret" "run1" "sess1" false (.str "c1")
        (.str "connect")
        (.obj [("auth", .obj [("token", .str "s3cret")])])).outs =
      [JVal.str "c1"] :=
  (response_per_request "s3cret" "run1" "sess1" false (.str "c1")
    (.str "connect") (.obj [("auth", .obj [("token", .str "s3cret")])])
    (by decide)).trans rfl

/-- C1 counterexample: an authenticated `chat.send` request with an empty
params object (message missing) and an unauthenticated `approval.respond`
request are both accepted by the handler yet produce no response at all —
the loop just continues with no output; and a `connect` request whose
params is the number 3 terminates the connection exceptionally without
any response. -/
theorem requests_without_response :
    read_loop "s3cret" "run1" "sess1" true
        [.valid (req_frame "r1" "chat.send" (.obj []))] =
      ([], .stillOpen true) ∧
    read_loop "s3cret" "run1" "sess1" false
        [.valid (req_frame "r2" "approval.respond" (.obj []))] =
      ([], .stillOpen false) ∧
    read_loop "s3cret" "run1" "sess1" true
        [.valid (req_frame "r3" "connect" (.num 3))] =
      ([], .crashed) :=
  ⟨rfl, rfl, rfl⟩

/-- The final accumulated text of the streaming loop is the starting
accumulator followed by the concatenation of all tokens. -/
theorem stream_deltas_snd (r acc : String) (ts : List String) :
    (stream_deltas r acc ts).2 = acc ++ concat_tokens ts := by
  induction ts generalizing acc with
  | nil => simp [stream_deltas, concat_tokens]
  | cons t ts ih =>
    simp only [stream_deltas, concat_tokens, ih (acc ++ t)]
    rw [String.append_assoc]

theorem run_events_nil (r : String) : run_events r [] = [] := rfl

theorem run_events_append (r : String) (l1 l2 : List Eff) :
    run_events r (l1 ++ l2) = run_events r l1 ++ run_events r l2 :=
  List.filterMap_append l1 l2 _

theorem run_events_cons_chat (r st tx : String) (rest : List Eff) :
    run_events r (Eff.send (.event (.chat r st tx)) :: rest) =
      .chat r st tx :: run_events r rest := by
  simp [run_events, List.filterMap_cons, ev_run_id]

theorem run_events_cons_lifecycle (r phase : String) (rest : List Eff) :
    run_events r (Eff.send (.event (.lifecycle r phase)) :: rest) =
      .lifecycle r phase :: run_events r rest := by
  simp [run_events, List.filterMap_cons, ev_run_id]

theorem run_events_cons_append_turn (r role c : String) (rest : List Eff) :
    run_events r (Eff.appendTurn role c :: rest) = run_events r rest := rfl

theorem run_events_cons_store (r src : String) (tc : JVal) (rest : List Eff) :
    run_events r (Eff.storeMsg src tc :: rest) = run_events r rest := rfl

theorem run_events_cons_audio (r a tx : String) (rest : List Eff) :
    run_events r (Eff.send (.event (.audioBroadcast a tx)) :: rest) =
      run_events r rest := rfl

/-- The events of run `r` emitted by the streaming loop are exactly one
delta per token, carrying the accumulated text so far. -/
theorem run_events_stream (r acc : String) (ts : List String) :
    run_events r (stream_deltas r acc ts).1 =
      (accum_texts acc ts).map (fun s => Ev.chat r "delta" s) := by
  induction ts generalizing acc with
  | nil => rfl
  | cons t ts ih =>
    simp only [stream_deltas, accum_texts, List.map_cons, make_chat_event,
      Bool.false_eq_true, if_false]
    rw [run_events_cons_chat]
    exact congrArg _ (ih (acc ++ t))

/-- The streaming loop performs no durable-log inserts. -/
theorem store_sources_stream (r acc : String) (ts : List String) :
    store_sources (stream_deltas r acc ts).1 = [] := by
  induction ts generalizing acc with
  | nil => rfl
  | cons t ts ih =>
    simp only [stream_deltas, store_sources, List.filterMap_cons]
    exact ih (acc ++ t)

/-- C3: for every chat turn, the events emitted for the run are exactly,
in order: lifecycle-start, one delta per token carrying the full
accumulated text so far, a final chat event carrying the concatenation
of all tokens, lifecycle-end; in particular, for a generation source
yielding exactly ["Hel", "lo"], they are lifecycle-start, delta "Hel",
delta "Hello", final "Hello", lifecycle-end. -/
theorem chat_turn_event_order :
    (∀ (runId : String) (history : List Turn) (text : String)
       (tokens : List String) (ttsAudio : Option String),
      run_events runId (handle_chat runId history text tokens ttsAudio).1 =
        Ev.lifecycle runId "start"
          :: (accum_texts "" tokens).map (fun s => Ev.chat runId "delta" s)
          ++ [Ev.chat runId "final" (concat_tokens tokens),
              Ev.lifecycle runId "end"]) ∧
    run_events "r1" (handle_chat "r1" [] "hi" ["Hel", "lo"] none).1 =
      [Ev.lifecycle "r1" "start", Ev.chat "r1" "delta" "Hel",
       Ev.chat "r1" "delta" "Hello", Ev.chat "r1" "final" "Hello",
       Ev.lifecycle "r1" "end"] := by
  refine ⟨fun runId history text tokens ttsAudio => ?_, rfl⟩
  simp only [handle_chat, make_agent_lifecycle, make_chat_event]
  rw [run_events_append, run_events_append, run_events_cons_lifecycle,
    run_events_cons_append_turn, run_events_stream, stream_deltas_snd]
  cases ttsAudio <;>
    simp [run_events_cons_chat, run_events_cons_lifecycle,
      run_events_cons_append_turn, run_events_cons_store,
      run_events_cons_audio, run_events_nil]

/-- C4 counterexample: in the effect trace of an accepted `chat.send`
(request id "q1", one token "x", synthesis disabled), the lifecycle-start
event is at position 2 and the transcript user-turn append at position 3
(of 9 effects): the code emits lifecycle-start before appending the user
turn, not after, refuting the claimed (c)-before-(d) order. -/
theorem chat_accept_order_cx :
    List.findIdx eff_is_lifecycle_start
        (chat_turn (.str "q1") "run1" [] "hi" ["x"] none).1 = 2 ∧
    List.findIdx eff_is_append_user
        (chat_turn (.str "q1") "run1" [] "hi" ["x"] none).1 = 3 ∧
    (chat_turn (.str "q1") "run1" [] "hi" ["x"] none).1.length = 9 :=
  ⟨rfl, rfl, rfl⟩

/-- C4 amended: for every accepted `chat.send`, the effects occur in this
order: (a) the acceptance response, (b) the durable-log append of the
inbound text as a human-sourced entry, (d) the lifecycle-start event,
(c) the transcript append of the user turn — start before the append,
not after — and then (e) the token-stream chat events, the first of
which is at position 4. -/
theorem chat_accept_order (reqId : JVal) (runId : String)
    (history : List Turn) (text : String) (tokens : List String)
    (ttsAudio : Option String) :
    (chat_turn reqId runId history text tokens ttsAudio).1.take 4 =
      [Eff.send (make_response reqId (.accepted runId)),
       Eff.storeMsg "human" (.str text),
       Eff.send (.event (make_agent_lifecycle runId "start")),
       Eff.appendTurn "user" text] ∧
    List.findIdx eff_is_chat_ev
      (chat_turn reqId runId history text tokens ttsAudio).1 = 4 := by
  constructor
  · simp [chat_turn, handle_chat, List.cons_append, List.take_succ_cons]
  · cases tokens <;>
      simp [chat_turn, handle_chat, stream_deltas, List.cons_append,
        List.findIdx_cons, eff_is_chat_ev, make_chat_event,
        make_agent_lifecycle, make_response]

theorem store_sources_nil : store_sources [] = [] := rfl

theorem store_sources_append (l1 l2 : List Eff) :
    store_sources (l1 ++ l2) = store_sources l1 ++ store_sources l2 :=
  List.filterMap_append l1 l2 _

theorem store_sources_cons_send (f : OutFrame) (rest : List Eff) :
    store_sources (Eff.send f :: rest) = store_sources rest := rfl

theorem store_sources_cons_append_turn (role c : String) (rest : List Eff) :
    store_sources (Eff.appendTurn role c :: rest) = store_sources rest := rfl

theorem store_sources_cons_store (src : String) (tc : JVal) (rest : List Eff) :
    store_sources (Eff.storeMsg src tc :: rest) =
      src :: store_sources rest := rfl

/-- C5 counterexample: a completed chat turn stores the inbound message
with source "human" and the assistant reply with source "crab" — not
"agent" (server.py line 195), and "crab" is neither of the two sources
the claim allows. -/
theorem chat_store_crab_cx :
    store_sources (chat_turn (.str "q2") "run2" [] "ping" ["He"] none).1 =
      ["human", "crab"] ∧
    ("crab" : String) ≠ "agent" ∧ ("crab" : String) ≠ "human" :=
  ⟨rfl, by decide, by decide⟩

/-- C5 amended: every completed chat turn performs exactly two
durable-log inserts, in order: the inbound user message with source
"human" and the completed assistant reply with source "crab" (the code
uses "crab", not "agent" as the spec says, for the assistant side). -/
theorem chat_turn_store_sources (reqId : JVal) (runId : String)
    (history : List Turn) (text : String) (tokens : List String)
    (ttsAudio : Option String) :
    store_sources (chat_turn reqId runId history text tokens ttsAudio).1 =
      ["human", "crab"] := by
  simp only [chat_turn, handle_chat]
  rw [store_sources_cons_send, store_sources_cons_store,
    store_sources_append, store_sources_append, store_sources_cons_send,
    store_sources_cons_append_turn, store_sources_stream]
  cases ttsAudio <;>
    simp [store_sources_cons_send, store_sources_cons_append_turn,
      store_sources_cons_store, store_sources_nil]

/-- Appending one user/assistant pair to the most recent 40 entries and
trimming gives the most recent 40 entries of the extended history. -/
theorem trim_last (xs : List Turn) (u a : Turn) :
    trim_history ((last_n 40 xs ++ [u]) ++ [a]) =
      last_n 40 ((xs ++ [u]) ++ [a]) := by
  unfold trim_history last_n
  by_cases h : xs.length ≤ 38
  · have e0 : xs.length - 40 = 0 := by omega
    have h1 : ¬(((xs.drop (xs.length - 40) ++ [u]) ++ [a]).length > 40) := by
      simp
      omega
    rw [if_neg h1]
    have e1 : ((xs ++ [u]) ++ [a]).length - 40 = 0 := by
      simp
      omega
    rw [e0, e1]
    simp
  · have h1 : ((xs.drop (xs.length - 40) ++ [u]) ++ [a]).length > 40 := by
      simp
      omega
    rw [if_pos h1]
    rw [List.append_assoc, List.append_assoc]
    rw [← List.drop_append_of_le_length
      (show xs.length - 40 ≤ xs.length by omega)]
    rw [List.drop_drop]
    congr 1
    simp
    omega

/-- Invariant of the completed-turn fold: starting from the most recent
40 entries of any history, each completed turn keeps the transcript
equal to the most recent 40 entries of the full history. -/
theorem run_turns_last (ps : List (String × Option String))
    (hc : ∀ p ∈ ps, p.2 ≠ none) (xs : List Turn) :
    run_turns (last_n 40 xs) ps = last_n 40 (xs ++ all_turns ps) := by
  induction ps generalizing xs with
  | nil => simp [run_turns, all_turns]
  | cons p rest ih =>
    obtain ⟨u, r⟩ := p
    cases r with
    | none => exact absurd rfl (hc (u, none) (List.mem_cons_self _ _))
    | some a =>
      simp only [run_turns, all_turns, turn_transcript]
      rw [trim_last]
      refine (ih (fun q hq => hc q (List.mem_cons_of_mem _ hq)) _).trans ?_
      congr 1
      simp

/-- C7 counterexample: 41 chat turns that each fail mid-stream (for
example, the generation backend raising out of `llm.chat_stream`, caught
at server.py line 210 with the connection alive) append 41 user entries
with the trim never running, leaving a transcript of 41 entries — more
than 40 turns appended, yet not trimmed to the most recent 40. -/
theorem transcript_cap_cx :
    (run_turns [] (List.replicate 41 ("u", (none : Option String)))).length
      = 41 ∧
    40 <
      (run_turns [] (List.replicate 41 ("u", (none : Option String)))).length :=
  ⟨by decide, by decide⟩

/-- C7 amended: a completed chat turn appends the user and assistant
entries and trims to the most recent 40, exactly as `_handle_chat` does;
folding any sequence of completed turns from an empty transcript leaves
exactly the most recent 40 entries of the full history once more than 40
entries were appended.  But the trim runs only at the end of a completed
turn: a turn whose token stream raises appends the user entry without
trimming, so failing turns can leave the transcript above 40 entries. -/
theorem transcript_cap :
    (∀ (runId : String) (history : List Turn) (text : String)
       (tokens : List String) (ttsAudio : Option String),
      (handle_chat runId history text tokens ttsAudio).2 =
        turn_transcript history text (some (stream_deltas runId "" tokens).2)) ∧
    (∀ ps : List (String × Option String), (∀ p ∈ ps, p.2 ≠ none) →
      run_turns [] ps = last_n 40 (all_turns ps) ∧
      (40 < (all_turns ps).length → (run_turns [] ps).length = 40)) ∧
    (∀ (h : List Turn) (u : String),
      turn_transcript h u none = h ++ [⟨"user", u⟩]) := by
  refine ⟨fun _ _ _ _ _ => rfl, fun ps hc => ?_, fun h u => rfl⟩
  have hrun : run_turns [] ps = last_n 40 (all_turns ps) := by
    have h := run_turns_last ps hc []
    simpa [last_n] using h
  refine ⟨hrun, fun hlen => ?_⟩
  rw [hrun]
  simp [last_n]
  omega

/-- Witness for `transcript_cap`: 21 completed turns append 42 entries,
and the transcript ends with exactly 40. -/
theorem transcript_cap_witness :
    run_turns [] (List.replicate 21 ("u", some "v")) =
      last_n 40 (all_turns (List.replicate 21 ("u", some "v"))) ∧
    (run_turns [] (List.replicate 21 ("u", some "v"))).length = 40 :=
  ⟨(transcript_cap.2.1 (List.replicate 21 ("u", some "v")) (by decide)).1,
   (transcript_cap.2.1 (List.replicate 21 ("u", some "v")) (by decide)).2
     (by decide)⟩

theorem heartbeat_pass_fst {α : Type} (sendOk : α → Bool)
    (s reg : List (String × α)) :
    (heartbeat_pass sendOk s reg).1 = s.map Prod.fst := by
  induction s generalizing reg with
  | nil => rfl
  | cons c rest ih =>
    obtain ⟨cid, ws⟩ := c
    by_cases h : sendOk ws = true
    · simp [heartbeat_pass, h, ih]
    · have h2 : sendOk ws = false := by
        revert h
        simp
      simp [heartbeat_pass, h2, ih]

theorem heartbeat_pass_snd {α : Type} (sendOk : α → Bool)
    (s reg : List (String × α)) :
    (heartbeat_pass sendOk s reg).2 =
      reg.filter (fun p =>
        !(((s.filter (fun q => !sendOk q.2)).map Prod.fst).contains p.1)) := by
  induction s generalizing reg with
  | nil => simp [heartbeat_pass]
  | cons c rest ih =>
    obtain ⟨cid, ws⟩ := c
    by_cases h : sendOk ws = true
    · simp [heartbeat_pass, h, ih]
    · have h2 : sendOk ws = false := by
        revert h
        simp
      simp only [heartbeat_pass, h2, Bool.false_eq_true, if_false, ih,
        List.filter_cons, Bool.not_false, if_true, List.map_cons,
        List.contains_cons, List.filter_filter]
      refine List.filter_congr fun p hp => ?_
      simp only [bne, Bool.not_or]
      cases hq : (((rest.filter (fun q => !sendOk q.2)).map
          Prod.fst).contains p.1) <;>
        cases hc : p.1 == cid <;> rfl

/-- C8: one heartbeat tick attempts the tick send to every registered
session (in registry order), and — given the registry keys are distinct,
as Python dict keys are — the registry afterwards holds exactly the
sessions whose send succeeded. -/
theorem heartbeat_tick_correct {α : Type} (clients : List (String × α))
    (sendOk : α → Bool) :
    (heartbeat_tick clients sendOk).1 = clients.map Prod.fst ∧
    ((clients.map Prod.fst).Nodup →
      (heartbeat_tick clients sendOk).2 =
        clients.filter (fun p => sendOk p.2)) := by
  refine ⟨heartbeat_pass_fst sendOk clients clients, fun hnd => ?_⟩
  rw [heartbeat_tick, heartbeat_pass_snd]
  refine List.filter_congr fun p hp => ?_
  by_cases hs : sendOk p.2 = true
  · have hmem : p.1 ∉ (clients.filter (fun q => !sendOk q.2)).map Prod.fst := by
      intro hmem
      obtain ⟨q, hq, hq1⟩ := List.mem_map.mp hmem
      obtain ⟨hqc, hqs⟩ := List.mem_filter.mp hq
      have heq := List.inj_on_of_nodup_map hnd hqc hp hq1
      rw [heq, hs] at hqs
      simp at hqs
    simp [hs, hmem]
  · have h2 : sendOk p.2 = false := by
      revert hs
      simp
    have hmem : p.1 ∈ (clients.filter (fun q => !sendOk q.2)).map Prod.fst :=
      List.mem_map.mpr ⟨p, List.mem_filter.mpr ⟨hp, by simp [h2]⟩, rfl⟩
    simp [h2, hmem]

/-- Witness for `heartbeat_tick_correct`: three registered sessions, the
send to "b" fails, and after one tick exactly "a" and "c" remain. -/
theorem heartbeat_tick_correct_witness :
    (heartbeat_tick [("a", 1), ("b", 2), ("c", 3)] (fun w => w != 2)).1 =
      ["a", "b", "c"] ∧
    (heartbeat_tick [("a", 1), ("b", 2), ("c", 3)] (fun w => w != 2)).2 =
      [("a", 1), ("c", 3)] := by
  have h := heartbeat_tick_correct [("a", (1 : Nat)), ("b", 2), ("c", 3)]
    (fun w => w != 2)
  exact ⟨h.1.trans rfl, (h.2 (by decide)).trans rfl⟩

theorem insert_desc_of_lt (r : MsgRow) (l : List MsgRow)
    (h : ∀ x ∈ l, r.created_at < x.created_at) :
    insert_desc r l = l ++ [r] := by
  induction l with
  | nil => rfl
  | cons x xs ih =>
    have hx := h x (List.mem_cons_self x xs)
    simp only [insert_desc]
    rw [if_neg (by omega), ih (fun y hy => h y (List.mem_cons_of_mem x hy))]
    rfl

theorem sort_desc_of_ascending (l : List MsgRow)
    (h : l.Pairwise (fun a b => a.created_at < b.created_at)) :
    sort_desc l = l.reverse := by
  induction l with
  | nil => rfl
  | cons x xs ih =>
    rw [List.pairwise_cons] at h
    simp only [sort_desc]
    rw [ih h.2,
      insert_desc_of_lt x xs.reverse (fun y hy => h.1 y (List.mem_reverse.mp hy)),
      List.reverse_cons]

/-- C9: when the stored rows have strictly increasing timestamps (each
insert is stamped later than the previous), the history read with limit
N returns exactly the N most recent rows, in chronological order (its
result is still sorted by timestamp), and the endpoint defaults the
limit to 50 when absent. -/
theorem history_endpoint_correct (stored : List MsgRow)
    (hasc : stored.Pairwise (fun a b => a.created_at < b.created_at)) :
    (∀ limit, get_messages stored limit = last_n limit stored) ∧
    messages_endpoint stored none = last_n 50 stored ∧
    (∀ limit,
      (get_messages stored limit).Pairwise
        (fun a b => a.created_at < b.created_at)) := by
  have hget : ∀ limit, get_messages stored limit = last_n limit stored := by
    intro limit
    unfold get_messages last_n
    rw [sort_desc_of_ascending stored hasc, List.reverse_take]
    simp
  refine ⟨hget, hget 50, fun limit => ?_⟩
  rw [hget limit]
  exact List.Pairwise.sublist (List.drop_sublist _ _) hasc

/-- Witness for `history_endpoint_correct`: three rows with timestamps
1 < 2 < 3; limit 2 returns the rows for timestamps 2 and 3 in that
order. -/
theorem history_endpoint_correct_witness :
    get_messages
        [⟨"m1", 1, "human", "x"⟩, ⟨"m2", 2, "crab", "y"⟩,
         ⟨"m3", 3, "human", "z"⟩] 2 =
      [⟨"m2", 2, "crab", "y"⟩, ⟨"m3", 3, "human", "z"⟩] :=
  ((history_endpoint_correct
      [⟨"m1", 1, "human", "x"⟩, ⟨"m2", 2, "crab", "y"⟩,
       ⟨"m3", 3, "human", "z"⟩] (by decide)).1 2).trans rfl

end OpenClaw
